import Mathlib

/-!
Shallow embedding of the go-downloader reconciliation program.

The program mirrors the Go release catalog: it parses a catalog of
releases, applies skip policies, verifies already-downloaded artifacts
via a size check and a hash sidecar file, and downloads anything not
satisfied, writing the artifact bytes and a sidecar containing the
expected hash text.

Modelling conventions:
* bytes are `List Nat` (each produced byte is < 256 where the Go code
  guarantees it);
* the filesystem is an explicit state: an association list from path to
  content bytes, a set of directories, and sets of paths whose reads or
  writes fail (modelling permission / IO errors);
* `crypto.SHA256` is an abstract parameter `sha256 : List Nat → List Nat`
  (the code treats it as an opaque digest function);
* the network is a function from URL to an optional HTTP response
  (`none` models a transport error, in which case the response callback
  never fires);
* Go's `path.Join dir name` is modelled as `dir ++ "/" ++ name` (path
  cleaning for degenerate names is not modelled; all catalog filenames
  are plain names);
* Go's `info.Size() != int64(file.Size)` comparison converts the
  `uint64` size with two's-complement wraparound, modelled by `toInt64`.
-/

/-- Hex value of one character, as in Go `encoding/hex.fromHexChar`:
digits, lowercase a-f and uppercase A-F are accepted. -/
def hexDigit (c : Char) : Option Nat :=
  if '0' ≤ c ∧ c ≤ '9' then some (c.toNat - '0'.toNat)
  else if 'a' ≤ c ∧ c ≤ 'f' then some (c.toNat - 'a'.toNat + 10)
  else if 'A' ≤ c ∧ c ≤ 'F' then some (c.toNat - 'A'.toNat + 10)
  else none

/-- Decode a list of hex characters two at a time, as Go
`hex.DecodeString` does; odd length or an invalid character is an
error (`none`). -/
def hexDecodeChars : List Char → Option (List Nat)
  | [] => some []
  | [_] => none
  | c1 :: c2 :: rest =>
    match hexDigit c1, hexDigit c2, hexDecodeChars rest with
    | some d1, some d2, some r => some ((d1 * 16 + d2) :: r)
    | _, _, _ => none

/-- Go `hex.DecodeString`. -/
def hexDecode (s : String) : Option (List Nat) :=
  hexDecodeChars s.data

/-- Lowercase hex digit character for a nibble. -/
def hexDigitChar (n : Nat) : Char :=
  if n < 10 then Char.ofNat (48 + n) else Char.ofNat (87 + n)

/-- Go `hex.EncodeToString`: each byte becomes its high then low nibble,
lowercase. -/
def hexEncode (b : List Nat) : String :=
  String.mk (b.foldr (fun x acc => hexDigitChar (x % 256 / 16) :: hexDigitChar (x % 16) :: acc) [])

/-- Go `type Hash string`: a content digest stored as hex text. -/
structure Hash where
  text : String
deriving DecidableEq

/-- Go `func (h Hash) Bytes() ([]byte, error)`: hex-decode the hash text. -/
def Hash.Bytes (h : Hash) : Option (List Nat) :=
  hexDecode h.text

/-- Go `func (h Hash) Equal(other []byte) bool`: decode the hash text;
return false on decode error or length mismatch, else compare
element-wise. -/
def Hash.Equal (h : Hash) (other : List Nat) : Bool :=
  match Hash.Bytes h with
  | none => false
  | some self =>
    if self.length != other.length then false
    else (self.zip other).all fun p => p.1 == p.2

/-- Go `type File struct`: one artifact descriptor of the catalog. -/
structure File where
  Filename : String
  OS : String
  Architecture : String
  Version : String
  SHA256Sum : Hash
  Size : Nat
  Kind : String
deriving DecidableEq

/-- Go `type Release struct`. -/
structure Release where
  Version : String
  IsStable : Bool
  Downloads : List File
deriving DecidableEq

/-- Go global `skipVersions = []string{"go1.2"}`. -/
def skipVersions : List String := ["go1.2"]

/-- Go global `skipWords = []string{"beta", "rc"}`. -/
def skipWords : List String := ["beta", "rc"]

/-- Pattern `pat` occurs at the front of `s` (helper for substring
search). -/
def leadsWith : List Char → List Char → Bool
  | [], _ => true
  | _ :: _, [] => false
  | p :: ps, s :: ss => p == s && leadsWith ps ss

/-- Pattern `pat` occurs contiguously somewhere in `s`. -/
def hasSub (pat : List Char) : List Char → Bool
  | [] => leadsWith pat []
  | s :: ss => leadsWith pat (s :: ss) || hasSub pat ss

/-- Go `strings.Contains(s, sub)`. -/
def strContains (s sub : String) : Bool :=
  hasSub sub.data s.data

/-- Go `func skipRelease(version string) bool`: skip when the version is
in `skipVersions` or contains one of `skipWords`. -/
def skipRelease (version : String) : Bool :=
  (skipVersions.any fun ver => ver == version) ||
    (skipWords.any fun word => strContains version word)

/-- Go `func skipFile(file File) bool`: skip when the declared size is
zero or the expected hash text is empty. -/
def skipFile (file : File) : Bool :=
  if file.Size == 0 then true
  else if file.SHA256Sum.text.length == 0 then true
  else false

/-- Explicit filesystem state: file contents by path, existing
directories, and the paths whose reads respectively writes fail with a
non-not-exist error. -/
structure FS where
  files : List (String × List Nat)
  dirs : List String
  readErr : List String
  writeErr : List String
deriving DecidableEq

/-- Lookup of a file's content by path. -/
def fsGet : List (String × List Nat) → String → Option (List Nat)
  | [], _ => none
  | (q, c) :: rest, p => if q == p then some c else fsGet rest p

/-- Replace-or-insert a file's content. -/
def fsSet : List (String × List Nat) → String → List Nat → List (String × List Nat)
  | [], p, c => [(p, c)]
  | (q, d) :: rest, p, c => if q == p then (p, c) :: rest else (q, d) :: fsSet rest p c

/-- Go `os.Stat` on a regular file: its size, or `none` when it does not
exist. -/
def statSize (fs : FS) (p : String) : Option Nat :=
  (fsGet fs.files p).map List.length

/-- Result of Go `ioutil.ReadFile` / `os.Open`: content, a not-exist
error, or another read error. -/
inductive ReadResult where
  | ok (content : List Nat)
  | notExist
  | err
deriving DecidableEq

/-- Go `ioutil.ReadFile`. -/
def readFile (fs : FS) (p : String) : ReadResult :=
  match fsGet fs.files p with
  | some c => if fs.readErr.contains p then ReadResult.err else ReadResult.ok c
  | none => ReadResult.notExist

/-- Go `ioutil.WriteFile`: `none` models a write error (the state is
unchanged), `some` the updated state. -/
def writeFile (fs : FS) (p : String) (c : List Nat) : Option FS :=
  if fs.writeErr.contains p then none
  else some { fs with files := fsSet fs.files p c }

/-- Byte content of a Go string (ASCII hash text). -/
def strBytes (s : String) : List Nat :=
  s.data.map Char.toNat

/-- String view of file bytes, Go `string(hd)`. -/
def bytesToStr (b : List Nat) : String :=
  String.mk (b.map Char.ofNat)

/-- Go `func writeHash(hashFile, hash string) error`. -/
def writeHash (fs : FS) (hashFile hash : String) : Option FS :=
  writeFile fs hashFile (strBytes hash)

/-- Go `int64(n)` applied to a `uint64` value: two's-complement
reinterpretation. -/
def toInt64 (n : Nat) : Int :=
  if n % 2 ^ 64 < 2 ^ 63 then ((n % 2 ^ 64 : Nat) : Int)
  else ((n % 2 ^ 64 : Nat) : Int) - 2 ^ 64

/-- Go `func dlTarget(dir string, file File) string`. -/
def dlTarget (dir : String) (file : File) : String :=
  dir ++ "/" ++ file.Filename

/-- Go `func dlSHA(target string) string`. -/
def dlSHA (target : String) : String :=
  target ++ ".sha"

/-- Go `func computeHash(target string) []byte`: open and digest the
file, best-effort write the sidecar (a write error is discarded), return
the digest bytes, or `none` (Go `nil`) when the file cannot be read. -/
def computeHash (sha256 : List Nat → List Nat) (fs : FS) (target : String) : Option (List Nat) × FS :=
  match readFile fs target with
  | ReadResult.ok content =>
    let hashBytes := sha256 content
    let hash := hexEncode hashBytes
    let hashFile := dlSHA target
    match writeHash fs hashFile hash with
    | some fs2 => (some hashBytes, fs2)
    | none => (some hashBytes, fs)
  | _ => (none, fs)

/-- Go `func checkHash(dir string, file File) bool`, the integrity
verifier, together with the filesystem state it leaves behind. -/
def checkHash (sha256 : List Nat → List Nat) (fs : FS) (dir : String) (file : File) : Bool × FS :=
  let target := dlTarget dir file
  match statSize fs target with
  | none => (false, fs)
  | some size =>
    if (size : Int) ≠ toInt64 file.Size then (false, fs)
    else
      let hashFile := dlSHA target
      match readFile fs hashFile with
      | ReadResult.notExist =>
        match computeHash sha256 fs target with
        | (hashBytes, fs2) => (Hash.Equal file.SHA256Sum (hashBytes.getD []), fs2)
      | ReadResult.err => (false, fs)
      | ReadResult.ok hd =>
        match hexDecode (bytesToStr hd) with
        | none => (false, fs)
        | some hb => (Hash.Equal file.SHA256Sum hb, fs)

/-- HTTP response as seen by the colly `OnResponse` callback. -/
structure Response where
  StatusCode : Nat
  Body : List Nat
deriving DecidableEq

/-- Download URL for a filename, Go `fmt.Sprintf(fileDownloadFmt, ...)`. -/
def fileDownloadURL (filename : String) : String :=
  "https://golang.org/dl/" ++ filename

/-- Body of the `OnResponse` callback inside Go `downloadFile`: on a 200
response save the body to the target, then best-effort write the sidecar
with the artifact's expected hash text; otherwise do nothing. -/
def downloadFileOnResponse (fs : FS) (releaseName : String) (download : File) (dr : Response) : FS :=
  if dr.StatusCode == 200 then
    let target := dlTarget releaseName download
    match writeFile fs target dr.Body with
    | none => fs
    | some fs1 =>
      let hashFile := dlSHA target
      match writeHash fs1 hashFile download.SHA256Sum.text with
      | none => fs1
      | some fs2 => fs2
  else fs

/-- Go `func downloadFile(...)`: one network GET; `none` from the
network models a transport error where the response callback never
fires. -/
def downloadFile (net : String → Option Response) (fs : FS) (releaseName : String) (download : File) : FS :=
  match net (fileDownloadURL download.Filename) with
  | none => fs
  | some dr => downloadFileOnResponse fs releaseName download dr

/-- Go `func ensureDirectory(name string) bool`: an existing directory
is fine, an existing non-directory entry is a conflict, otherwise mkdir
(which can fail). -/
def ensureDirectory (fs : FS) (name : String) : Bool × FS :=
  if fs.dirs.contains name then (true, fs)
  else if (fsGet fs.files name).isSome then (false, fs)
  else if fs.writeErr.contains name then (false, fs)
  else (true, { fs with dirs := name :: fs.dirs })

/-- One iteration of the inner artifact loop of Go `main`: apply the
artifact skip policy, then the verifier, then download when not
satisfied. The second component counts network downloads performed. -/
def processFile (sha256 : List Nat → List Nat) (net : String → Option Response) (fs : FS) (releaseName : String) (download : File) : FS × Nat :=
  if skipFile download then (fs, 0)
  else
    let c := checkHash sha256 fs releaseName download
    if c.1 then (c.2, 0)
    else (downloadFile net c.2 releaseName download, 1)

/-- The inner artifact loop of Go `main` over a release's download
list. -/
def processDownloads (sha256 : List Nat → List Nat) (net : String → Option Response) (fs : FS) (releaseName : String) : List File → FS × Nat
  | [] => (fs, 0)
  | d :: rest =>
    let p := processFile sha256 net fs releaseName d
    let q := processDownloads sha256 net p.1 releaseName rest
    (q.1, p.2 + q.2)

/-- One iteration of the outer release loop of Go `main`. -/
def processRelease (sha256 : List Nat → List Nat) (net : String → Option Response) (fs : FS) (release : Release) : FS × Nat :=
  if skipRelease release.Version then (fs, 0)
  else
    let e := ensureDirectory fs release.Version
    if e.1 then processDownloads sha256 net e.2 release.Version release.Downloads
    else (e.2, 0)

/-- The reconciliation loop of Go `main` over the parsed catalog, with
the number of network downloads performed. -/
def runLoop (sha256 : List Nat → List Nat) (net : String → Option Response) (fs : FS) : List Release → FS × Nat
  | [] => (fs, 0)
  | r :: rest =>
    let p := processRelease sha256 net fs r
    let q := runLoop sha256 net p.1 rest
    (q.1, p.2 + q.2)

/-- State in which the verifier reports an artifact satisfied without
touching the filesystem: the file is present with the declared size, the
sidecar is present and readable and contains exactly the expected hash
text, and the expected hash text is well-formed hex. -/
def artifactSatisfiedState (fs : FS) (dir : String) (f : File) : Bool :=
  (match fsGet fs.files (dlTarget dir f) with
   | some body => decide ((body.length : Int) = toInt64 f.Size)
   | none => false) &&
  (fsGet fs.files (dlSHA (dlTarget dir f)) == some (strBytes f.SHA256Sum.text)) &&
  !(fs.readErr.contains (dlSHA (dlTarget dir f))) &&
  (hexDecode f.SHA256Sum.text).isSome

theorem bytesToStr_strBytes (s : String) : bytesToStr (strBytes s) = s := by
  cases s with
  | mk data =>
    simp [bytesToStr, strBytes, List.map_map, Function.comp_def, Char.ofNat_toNat]

theorem zipAllEq (xs : List Nat) : ∀ ys : List Nat, xs.length = ys.length →
    ((((xs.zip ys).all fun p => p.1 == p.2) = true) ↔ xs = ys) := by
  induction xs with
  | nil =>
    intro ys h
    cases ys with
    | nil => simp
    | cons y ys => simp at h
  | cons x xs ih =>
    intro ys h
    cases ys with
    | nil => simp at h
    | cons y ys =>
      have hlen : xs.length = ys.length := by simpa using h
      simp [List.all_cons, ih ys hlen, List.cons.injEq]

theorem hashEqual_iff (h : Hash) (b : List Nat) :
    Hash.Equal h b = true ↔ Hash.Bytes h = some b := by
  unfold Hash.Equal
  cases hB : Hash.Bytes h with
  | none => simp
  | some self =>
    show (if (self.length != b.length) = true then false
          else (self.zip b).all fun p => p.1 == p.2) = true ↔ some self = some b
    by_cases hl : self.length = b.length
    · rw [if_neg (by simp [hl])]
      rw [zipAllEq self b hl]
      simp
    · rw [if_pos (by simp [hl])]
      simp only [Bool.false_eq_true, false_iff, Option.some.injEq]
      intro he
      exact hl (by rw [he])

theorem leadsWith_iff (p : List Char) : ∀ s : List Char,
    (leadsWith p s = true ↔ p <+: s) := by
  induction p with
  | nil => intro s; simp [leadsWith]
  | cons x xs ih =>
    intro s
    cases s with
    | nil => simp [leadsWith]
    | cons y ys => simp [leadsWith, ih ys, List.cons_prefix_cons]

theorem hasSub_iff (p : List Char) : ∀ s : List Char,
    (hasSub p s = true ↔ p <:+: s) := by
  intro s
  induction s with
  | nil => simp [hasSub, leadsWith_iff]
  | cons y ys ih => simp [hasSub, leadsWith_iff, ih, List.infix_cons_iff]

theorem string_length_eq_zero_iff (s : String) : s.length = 0 ↔ s = "" := by
  cases s with
  | mk data =>
    cases data with
    | nil => exact ⟨fun _ => rfl, fun _ => rfl⟩
    | cons c cs =>
      constructor
      · intro h; exact absurd h (by simp [String.length])
      · intro h; exact absurd (congrArg String.data h) (by simp)

/-- C2: `Hash.Equal h b` hex-decodes the hash text `h` first and is a
total function (no panic is possible); it is `true` exactly when the
text decodes successfully to bytes identical to `b`, so in particular it
is `false` whenever decoding fails or the decoded length differs from
the length of `b`. -/
theorem hash_equal_decode_spec (h : Hash) (b : List Nat) :
    Hash.Equal h b = true ↔ Hash.Bytes h = some b :=
  hashEqual_iff h b

/-- C5: the release skip policy returns skip exactly when the version
string is an entry of the excluded-version list `skipVersions` or
contains an entry of the pre-release marker set `skipWords` as a
contiguous substring; the substring match also fires on coincidental
occurrences, e.g. "march2024" contains "rc". The policy is a plain
function of the version string with no side effects. -/
theorem skip_release_policy (v : String) :
    (skipRelease v = true ↔
      v ∈ skipVersions ∨ ∃ w ∈ skipWords, w.data <:+: v.data) ∧
    skipRelease "march2024" = true := by
  constructor
  · rw [skipRelease]
    simp only [Bool.or_eq_true, List.any_eq_true, beq_iff_eq, strContains, hasSub_iff]
    constructor
    · rintro (⟨ver, hmem, rfl⟩ | ⟨w, hmem, hinf⟩)
      · exact Or.inl hmem
      · exact Or.inr ⟨w, hmem, hinf⟩
    · rintro (hmem | ⟨w, hmem, hinf⟩)
      · exact Or.inl ⟨v, hmem, rfl⟩
      · exact Or.inr ⟨w, hmem, hinf⟩
  · decide

/-- C6: the artifact skip policy returns skip exactly when the declared
size is zero or the expected hash text is empty, and a skipped artifact
is passed neither to the verifier nor to the fetcher: the loop body
returns at once with the filesystem unchanged and zero downloads. -/
theorem skip_file_policy (f : File) (sha256 : List Nat → List Nat)
    (net : String → Option Response) (fs : FS) (dir : String) :
    (skipFile f = true ↔ f.Size = 0 ∨ f.SHA256Sum.text = "") ∧
    (skipFile f = true → processFile sha256 net fs dir f = (fs, 0)) := by
  constructor
  · rw [skipFile]
    by_cases h0 : f.Size = 0
    · simp [h0]
    · by_cases hh : f.SHA256Sum.text = ""
      · simp [h0, hh]
      · have hne : f.SHA256Sum.text.length ≠ 0 := by
          simpa [string_length_eq_zero_iff] using hh
        simp [h0, hh, hne]
  · intro hs
    rw [processFile, if_pos hs]

/-- Witness for the skip-file policy at a concrete zero-size artifact. -/
theorem skip_file_policy_witness :
    skipFile ⟨"f", "linux", "amd64", "go1.21.0", ⟨"aa"⟩, 0, "archive"⟩ = true ∧
    processFile (fun _ => []) (fun _ => none) ⟨[], [], [], []⟩ "go1.21.0"
        ⟨"f", "linux", "amd64", "go1.21.0", ⟨"aa"⟩, 0, "archive"⟩ =
      (⟨[], [], [], []⟩, 0) :=
  ⟨by decide,
    (skip_file_policy ⟨"f", "linux", "amd64", "go1.21.0", ⟨"aa"⟩, 0, "archive"⟩
      (fun _ => []) (fun _ => none) ⟨[], [], [], []⟩ "go1.21.0").2 (by decide)⟩

theorem fsGet_fsSet_same (l : List (String × List Nat)) (p : String) (c : List Nat) :
    fsGet (fsSet l p c) p = some c := by
  induction l with
  | nil => simp [fsGet, fsSet]
  | cons hd tl ih =>
    cases hd with
    | mk q d =>
      by_cases hq : q = p
      · simp [fsSet, fsGet, hq]
      · simp [fsSet, fsGet, hq, ih]

/-- C3: when the local file exists but its actual size differs from the
artifact's declared size (as compared by the code, through the `uint64`
to `int64` conversion), the verifier reports not satisfied and leaves
the filesystem untouched; since the state is arbitrary, the verdict is
the same whatever sidecar is or is not present — the sidecar is never
consulted. -/
theorem checkHash_size_mismatch (sha256 : List Nat → List Nat) (fs : FS)
    (dir : String) (f : File) (body : List Nat)
    (hbody : fsGet fs.files (dlTarget dir f) = some body)
    (hsz : (body.length : Int) ≠ toInt64 f.Size) :
    checkHash sha256 fs dir f = (false, fs) := by
  have hstat : statSize fs (dlTarget dir f) = some body.length := by
    rw [statSize, hbody]; rfl
  simp [checkHash, hstat, hsz]

/-- Witness for the size-mismatch theorem: a 3-byte file against a
declared size of 5, with a sidecar present whose content would match. -/
theorem checkHash_size_mismatch_witness :
    fsGet (FS.mk [("go1.21.0/f", [1, 2, 3]), ("go1.21.0/f.sha", strBytes "aa")]
        ["go1.21.0"] [] []).files
        (dlTarget "go1.21.0" ⟨"f", "linux", "amd64", "go1.21.0", ⟨"aa"⟩, 5, "archive"⟩) =
      some [1, 2, 3] ∧
    checkHash (fun _ => [170]) (FS.mk [("go1.21.0/f", [1, 2, 3]), ("go1.21.0/f.sha", strBytes "aa")]
        ["go1.21.0"] [] []) "go1.21.0"
        ⟨"f", "linux", "amd64", "go1.21.0", ⟨"aa"⟩, 5, "archive"⟩ =
      (false, FS.mk [("go1.21.0/f", [1, 2, 3]), ("go1.21.0/f.sha", strBytes "aa")]
        ["go1.21.0"] [] []) :=
  ⟨by decide,
    checkHash_size_mismatch (fun _ => [170])
      (FS.mk [("go1.21.0/f", [1, 2, 3]), ("go1.21.0/f.sha", strBytes "aa")] ["go1.21.0"] [] [])
      "go1.21.0" ⟨"f", "linux", "amd64", "go1.21.0", ⟨"aa"⟩, 5, "archive"⟩ [1, 2, 3]
      (by decide) (by decide)⟩

/-- C7: when the local file exists with matching size and the sidecar is
present and readable but its text fails to hex-decode, the verifier
returns not satisfied with the filesystem unchanged — the malformed
sidecar is neither repaired nor rewritten, and the verifier returns
normally (it is a total function, so nothing is raised and the run is
not aborted). -/
theorem checkHash_malformed_sidecar (sha256 : List Nat → List Nat) (fs : FS)
    (dir : String) (f : File) (body hd : List Nat)
    (hbody : fsGet fs.files (dlTarget dir f) = some body)
    (hsz : (body.length : Int) = toInt64 f.Size)
    (hsc : fsGet fs.files (dlSHA (dlTarget dir f)) = some hd)
    (hre : fs.readErr.contains (dlSHA (dlTarget dir f)) = false)
    (hmal : hexDecode (bytesToStr hd) = none) :
    checkHash sha256 fs dir f = (false, fs) := by
  have hstat : statSize fs (dlTarget dir f) = some body.length := by
    rw [statSize, hbody]; rfl
  have hread : readFile fs (dlSHA (dlTarget dir f)) = ReadResult.ok hd := by
    rw [readFile, hsc, hre]; rfl
  simp [checkHash, hstat, hsz, hread, hmal]

/-- Witness for the malformed-sidecar theorem: sidecar text "zz" is not
valid hex. -/
theorem checkHash_malformed_sidecar_witness :
    fsGet (FS.mk [("go1.21.0/f", [7]), ("go1.21.0/f.sha", strBytes "zz")]
        ["go1.21.0"] [] []).files
        (dlTarget "go1.21.0" ⟨"f", "linux", "amd64", "go1.21.0", ⟨"aa"⟩, 1, "archive"⟩) =
      some [7] ∧
    checkHash (fun _ => [170]) (FS.mk [("go1.21.0/f", [7]), ("go1.21.0/f.sha", strBytes "zz")]
        ["go1.21.0"] [] []) "go1.21.0"
        ⟨"f", "linux", "amd64", "go1.21.0", ⟨"aa"⟩, 1, "archive"⟩ =
      (false, FS.mk [("go1.21.0/f", [7]), ("go1.21.0/f.sha", strBytes "zz")]
        ["go1.21.0"] [] []) :=
  ⟨by decide,
    checkHash_malformed_sidecar (fun _ => [170])
      (FS.mk [("go1.21.0/f", [7]), ("go1.21.0/f.sha", strBytes "zz")] ["go1.21.0"] [] [])
      "go1.21.0" ⟨"f", "linux", "amd64", "go1.21.0", ⟨"aa"⟩, 1, "archive"⟩ [7]
      (strBytes "zz") (by decide) (by decide) (by decide) (by decide) (by decide)⟩

/-- C10: when the local file exists with matching size and the sidecar
is present and readable, verification performs no filesystem write at
all: the state component returned by the verifier is exactly the input
state, whichever verdict is reached. -/
theorem checkHash_sidecar_present_frame (sha256 : List Nat → List Nat) (fs : FS)
    (dir : String) (f : File) (body hd : List Nat)
    (hbody : fsGet fs.files (dlTarget dir f) = some body)
    (hsz : (body.length : Int) = toInt64 f.Size)
    (hsc : fsGet fs.files (dlSHA (dlTarget dir f)) = some hd)
    (hre : fs.readErr.contains (dlSHA (dlTarget dir f)) = false) :
    (checkHash sha256 fs dir f).2 = fs := by
  have hstat : statSize fs (dlTarget dir f) = some body.length := by
    rw [statSize, hbody]; rfl
  have hread : readFile fs (dlSHA (dlTarget dir f)) = ReadResult.ok hd := by
    rw [readFile, hsc, hre]; rfl
  cases hdec : hexDecode (bytesToStr hd) with
  | none => simp [checkHash, hstat, hsz, hread, hdec]
  | some hb => simp [checkHash, hstat, hsz, hread, hdec]

/-- Witness for the sidecar-present frame theorem, with a sidecar whose
decoded digest does not match the expected hash (verdict not
satisfied, still no write). -/
theorem checkHash_sidecar_present_frame_witness :
    fsGet (FS.mk [("go1.21.0/f", [7]), ("go1.21.0/f.sha", strBytes "bb")]
        ["go1.21.0"] [] []).files
        (dlTarget "go1.21.0" ⟨"f", "linux", "amd64", "go1.21.0", ⟨"aa"⟩, 1, "archive"⟩) =
      some [7] ∧
    (checkHash (fun _ => [170]) (FS.mk [("go1.21.0/f", [7]), ("go1.21.0/f.sha", strBytes "bb")]
        ["go1.21.0"] [] []) "go1.21.0"
        ⟨"f", "linux", "amd64", "go1.21.0", ⟨"aa"⟩, 1, "archive"⟩).2 =
      FS.mk [("go1.21.0/f", [7]), ("go1.21.0/f.sha", strBytes "bb")] ["go1.21.0"] [] [] :=
  ⟨by decide,
    checkHash_sidecar_present_frame (fun _ => [170])
      (FS.mk [("go1.21.0/f", [7]), ("go1.21.0/f.sha", strBytes "bb")] ["go1.21.0"] [] [])
      "go1.21.0" ⟨"f", "linux", "amd64", "go1.21.0", ⟨"aa"⟩, 1, "archive"⟩ [7]
      (strBytes "bb") (by decide) (by decide) (by decide) (by decide)⟩

/-- C8: when the local file exists with matching size, is readable, and
the sidecar is absent, the verifier digests the full file content,
attempts to persist the digest as the new sidecar (the write succeeds
exactly when the path is writable), and the verdict is satisfied exactly
when the computed digest equals the decoded expected hash — the verdict
is the same whether or not the sidecar write succeeds. -/
theorem checkHash_sidecar_absent (sha256 : List Nat → List Nat) (fs : FS)
    (dir : String) (f : File) (body : List Nat)
    (hbody : fsGet fs.files (dlTarget dir f) = some body)
    (hsz : (body.length : Int) = toInt64 f.Size)
    (hsc : fsGet fs.files (dlSHA (dlTarget dir f)) = none)
    (hre : fs.readErr.contains (dlTarget dir f) = false) :
    ((checkHash sha256 fs dir f).1 = true ↔ Hash.Bytes f.SHA256Sum = some (sha256 body)) ∧
    (fs.writeErr.contains (dlSHA (dlTarget dir f)) = false →
      fsGet (checkHash sha256 fs dir f).2.files (dlSHA (dlTarget dir f)) =
        some (strBytes (hexEncode (sha256 body)))) ∧
    (fs.writeErr.contains (dlSHA (dlTarget dir f)) = true →
      (checkHash sha256 fs dir f).2 = fs) := by
  have hstat : statSize fs (dlTarget dir f) = some body.length := by
    rw [statSize, hbody]; rfl
  have hreadT : readFile fs (dlTarget dir f) = ReadResult.ok body := by
    rw [readFile, hbody, hre]; rfl
  have hreadS : readFile fs (dlSHA (dlTarget dir f)) = ReadResult.notExist := by
    rw [readFile, hsc]
  cases hw : fs.writeErr.contains (dlSHA (dlTarget dir f)) with
  | false =>
    have hmem : dlSHA (dlTarget dir f) ∉ fs.writeErr := by simpa using hw
    have hch : checkHash sha256 fs dir f =
        (Hash.Equal f.SHA256Sum (sha256 body),
          FS.mk (fsSet fs.files (dlSHA (dlTarget dir f)) (strBytes (hexEncode (sha256 body))))
            fs.dirs fs.readErr fs.writeErr) := by
      simp [checkHash, hstat, hsz, hreadS, computeHash, hreadT, writeHash, writeFile, hmem]
    refine ⟨?_, ?_, ?_⟩
    · rw [hch]; exact hashEqual_iff f.SHA256Sum (sha256 body)
    · intro _; rw [hch]; exact fsGet_fsSet_same fs.files _ _
    · intro hcontra; simp at hcontra
  | true =>
    have hmem : dlSHA (dlTarget dir f) ∈ fs.writeErr := by simpa using hw
    have hch : checkHash sha256 fs dir f = (Hash.Equal f.SHA256Sum (sha256 body), fs) := by
      simp [checkHash, hstat, hsz, hreadS, computeHash, hreadT, writeHash, writeFile, hmem]
    refine ⟨?_, ?_, ?_⟩
    · rw [hch]; exact hashEqual_iff f.SHA256Sum (sha256 body)
    · intro hcontra; simp at hcontra
    · intro _; rw [hch]

/-- Witness for the sidecar-absent theorem: a readable 1-byte file with
no sidecar, a digest function returning `[170]`, and expected hash text
"aa"; the freshly written sidecar contains the hex encoding of the
computed digest. -/
theorem checkHash_sidecar_absent_witness :
    fsGet (FS.mk [("go1.21.0/f", [7])] ["go1.21.0"] [] []).files
        (dlTarget "go1.21.0" ⟨"f", "linux", "amd64", "go1.21.0", ⟨"aa"⟩, 1, "archive"⟩) =
      some [7] ∧
    fsGet (checkHash (fun _ => [170]) (FS.mk [("go1.21.0/f", [7])] ["go1.21.0"] [] [])
          "go1.21.0" ⟨"f", "linux", "amd64", "go1.21.0", ⟨"aa"⟩, 1, "archive"⟩).2.files
        (dlSHA (dlTarget "go1.21.0" ⟨"f", "linux", "amd64", "go1.21.0", ⟨"aa"⟩, 1, "archive"⟩)) =
      some (strBytes (hexEncode [170])) :=
  ⟨by decide,
    (checkHash_sidecar_absent (fun _ => [170])
      (FS.mk [("go1.21.0/f", [7])] ["go1.21.0"] [] []) "go1.21.0"
      ⟨"f", "linux", "amd64", "go1.21.0", ⟨"aa"⟩, 1, "archive"⟩ [7]
      (by decide) (by decide) (by decide) (by decide)).2.1 (by decide)⟩

/-- C4: on a 200 response whose body is successfully written to the
target path, the sidecar written immediately afterwards contains exactly
the artifact's already-known expected hash text from the catalog —
`downloadFileOnResponse` takes no digest function at all, so no fresh
digest of the written bytes can be involved, and the sidecar content
does not depend on the response body. -/
theorem download_sidecar_expected_hash (fs : FS) (releaseName : String)
    (download : File) (dr : Response)
    (h200 : dr.StatusCode = 200)
    (hwt : fs.writeErr.contains (dlTarget releaseName download) = false)
    (hws : fs.writeErr.contains (dlSHA (dlTarget releaseName download)) = false) :
    fsGet (downloadFileOnResponse fs releaseName download dr).files
        (dlSHA (dlTarget releaseName download)) =
      some (strBytes download.SHA256Sum.text) := by
  have hmt : dlTarget releaseName download ∉ fs.writeErr := by simpa using hwt
  have hms : dlSHA (dlTarget releaseName download) ∉ fs.writeErr := by simpa using hws
  simp [downloadFileOnResponse, h200, writeHash, writeFile, hmt, hms, fsGet_fsSet_same]

/-- Witness for the expected-hash sidecar theorem at a concrete 200
response with a 3-byte body. -/
theorem download_sidecar_expected_hash_witness :
    (Response.mk 200 [1, 2, 3]).StatusCode = 200 ∧
    fsGet (downloadFileOnResponse (FS.mk [] ["go1.21.0"] [] []) "go1.21.0"
          ⟨"f", "linux", "amd64", "go1.21.0", ⟨"aa"⟩, 5, "archive"⟩
          (Response.mk 200 [1, 2, 3])).files
        (dlSHA (dlTarget "go1.21.0" ⟨"f", "linux", "amd64", "go1.21.0", ⟨"aa"⟩, 5, "archive"⟩)) =
      some (strBytes "aa") :=
  ⟨by decide,
    download_sidecar_expected_hash (FS.mk [] ["go1.21.0"] [] []) "go1.21.0"
      ⟨"f", "linux", "amd64", "go1.21.0", ⟨"aa"⟩, 5, "archive"⟩ (Response.mk 200 [1, 2, 3])
      (by decide) (by decide) (by decide)⟩

/-- C9: on a non-200 response neither the artifact file nor its sidecar
is written — the handler leaves the filesystem state exactly unchanged,
so the artifact remains unsatisfied for the next run; the handler is a
total function, so nothing propagates beyond it (the loop, a total fold,
continues with the remaining artifacts and releases). -/
theorem download_non200_frame (fs : FS) (releaseName : String)
    (download : File) (dr : Response)
    (h : dr.StatusCode ≠ 200) :
    downloadFileOnResponse fs releaseName download dr = fs := by
  simp [downloadFileOnResponse, h]

/-- Witness for the non-200 frame theorem at a concrete 404 response. -/
theorem download_non200_frame_witness :
    (Response.mk 404 [1, 2, 3]).StatusCode ≠ 200 ∧
    downloadFileOnResponse (FS.mk [] ["go1.21.0"] [] []) "go1.21.0"
        ⟨"f", "linux", "amd64", "go1.21.0", ⟨"aa"⟩, 5, "archive"⟩
        (Response.mk 404 [1, 2, 3]) =
      FS.mk [] ["go1.21.0"] [] [] :=
  ⟨by decide,
    download_non200_frame (FS.mk [] ["go1.21.0"] [] []) "go1.21.0"
      ⟨"f", "linux", "amd64", "go1.21.0", ⟨"aa"⟩, 5, "archive"⟩
      (Response.mk 404 [1, 2, 3]) (by decide)⟩

theorem checkHash_of_satisfiedState (sha256 : List Nat → List Nat) (fs : FS)
    (dir : String) (f : File)
    (h : artifactSatisfiedState fs dir f = true) :
    checkHash sha256 fs dir f = (true, fs) := by
  unfold artifactSatisfiedState at h
  rcases hbody : fsGet fs.files (dlTarget dir f) with _ | body
  · rw [hbody] at h; simp at h
  · rw [hbody] at h
    simp only [Bool.and_eq_true, decide_eq_true_eq, beq_iff_eq, Bool.not_eq_true'] at h
    obtain ⟨⟨⟨hsz, hsc⟩, hre⟩, hhex⟩ := h
    obtain ⟨hb, hhb⟩ := Option.isSome_iff_exists.mp hhex
    have hstat : statSize fs (dlTarget dir f) = some body.length := by
      rw [statSize, hbody]; rfl
    have hread : readFile fs (dlSHA (dlTarget dir f)) = ReadResult.ok (strBytes f.SHA256Sum.text) := by
      rw [readFile, hsc, hre]; rfl
    have hEqual : Hash.Equal f.SHA256Sum hb = true :=
      (hashEqual_iff f.SHA256Sum hb).mpr hhb
    simp [checkHash, hstat, hsz, hread, bytesToStr_strBytes, hhb, hEqual]

theorem processFile_noDownload (sha256 : List Nat → List Nat)
    (net : String → Option Response) (fs : FS) (dir : String) (f : File)
    (h : skipFile f = true ∨ artifactSatisfiedState fs dir f = true) :
    processFile sha256 net fs dir f = (fs, 0) := by
  by_cases hs : skipFile f = true
  · rw [processFile, if_pos hs]
  · rcases h with h | hsat
    · exact absurd h hs
    · rw [processFile, if_neg hs, checkHash_of_satisfiedState sha256 fs dir f hsat]
      rfl

theorem processDownloads_noDownload (sha256 : List Nat → List Nat)
    (net : String → Option Response) (fs : FS) (dir : String) :
    ∀ ds : List File,
    (∀ f ∈ ds, skipFile f = true ∨ artifactSatisfiedState fs dir f = true) →
    processDownloads sha256 net fs dir ds = (fs, 0) := by
  intro ds
  induction ds with
  | nil => intro _; rfl
  | cons d rest ih =>
    intro h
    have hd := h d (by simp)
    have hrest : ∀ f ∈ rest, skipFile f = true ∨ artifactSatisfiedState fs dir f = true := by
      intro f hf
      exact h f (by simp [hf])
    simp [processDownloads, processFile_noDownload sha256 net fs dir d hd, ih hrest]

theorem ensureDirectory_preserves (fs : FS) (name : String) :
    (ensureDirectory fs name).2.files = fs.files ∧
    (ensureDirectory fs name).2.readErr = fs.readErr := by
  unfold ensureDirectory
  split_ifs <;> simp

theorem artifactSatisfiedState_congr (fs fs' : FS) (dir : String) (f : File)
    (hf : fs'.files = fs.files) (hr : fs'.readErr = fs.readErr) :
    artifactSatisfiedState fs' dir f = artifactSatisfiedState fs dir f := by
  unfold artifactSatisfiedState
  rw [hf, hr]

theorem processRelease_noDownload (sha256 : List Nat → List Nat)
    (net : String → Option Response) (fs : FS) (r : Release)
    (hst : skipRelease r.Version = false →
      ∀ f ∈ r.Downloads, skipFile f = true ∨ artifactSatisfiedState fs r.Version f = true) :
    (processRelease sha256 net fs r).2 = 0 ∧
    (processRelease sha256 net fs r).1.files = fs.files ∧
    (processRelease sha256 net fs r).1.readErr = fs.readErr := by
  by_cases hskip : skipRelease r.Version = true
  · rw [processRelease, if_pos hskip]
    exact ⟨rfl, rfl, rfl⟩
  · have hsk : skipRelease r.Version = false := by
      simpa [Bool.not_eq_true] using hskip
    have hall := hst hsk
    rcases hed : ensureDirectory fs r.Version with ⟨b, fs2⟩
    have hpres := ensureDirectory_preserves fs r.Version
    rw [hed] at hpres
    obtain ⟨hfl, hre⟩ := hpres
    replace hfl : fs2.files = fs.files := hfl
    replace hre : fs2.readErr = fs.readErr := hre
    cases b with
    | false =>
      have heq : processRelease sha256 net fs r = (fs2, 0) := by
        simp [processRelease, hskip, hed]
      rw [heq]
      exact ⟨rfl, hfl, hre⟩
    | true =>
      have hall2 : ∀ f ∈ r.Downloads,
          skipFile f = true ∨ artifactSatisfiedState fs2 r.Version f = true := by
        intro f hf
        rw [artifactSatisfiedState_congr fs fs2 r.Version f hfl hre]
        exact hall f hf
      have heq : processRelease sha256 net fs r = (fs2, 0) := by
        simp [processRelease, hskip, hed,
          processDownloads_noDownload sha256 net fs2 r.Version r.Downloads hall2]
      rw [heq]
      exact ⟨rfl, hfl, hre⟩

theorem runLoop_noDownload (sha256 : List Nat → List Nat)
    (net : String → Option Response) :
    ∀ (rel : List Release) (fs : FS),
    (∀ r ∈ rel, skipRelease r.Version = false →
      ∀ f ∈ r.Downloads, skipFile f = true ∨ artifactSatisfiedState fs r.Version f = true) →
    (runLoop sha256 net fs rel).2 = 0 ∧
    (runLoop sha256 net fs rel).1.files = fs.files ∧
    (runLoop sha256 net fs rel).1.readErr = fs.readErr := by
  intro rel
  induction rel with
  | nil => intro fs _; exact ⟨rfl, rfl, rfl⟩
  | cons r rest ih =>
    intro fs h
    rcases hpr : processRelease sha256 net fs r with ⟨fs2, n⟩
    have hr := processRelease_noDownload sha256 net fs r (fun hs => h r (by simp) hs)
    rw [hpr] at hr
    obtain ⟨hn, hfl, hre⟩ := hr
    replace hn : n = 0 := hn
    replace hfl : fs2.files = fs.files := hfl
    replace hre : fs2.readErr = fs.readErr := hre
    have hrest := ih fs2 (by
      intro r' hr' hs f hf
      rw [artifactSatisfiedState_congr fs fs2 r'.Version f hfl hre]
      exact h r' (by simp [hr']) hs f hf)
    rcases hrl : runLoop sha256 net fs2 rest with ⟨fs3, m⟩
    rw [hrl] at hrest
    obtain ⟨hm, hfl3, hre3⟩ := hrest
    replace hm : m = 0 := hm
    replace hfl3 : fs3.files = fs2.files := hfl3
    replace hre3 : fs3.readErr = fs2.readErr := hre3
    have heq : runLoop sha256 net fs (r :: rest) = (fs3, n + m) := by
      simp [runLoop, hpr, hrl]
    rw [heq]
    refine ⟨?_, ?_, ?_⟩
    · simp [hn, hm]
    · simp [hfl3, hfl]
    · simp [hre3, hre]

def cexFile : File := ⟨"f", "linux", "amd64", "go1.21.0", ⟨"aa"⟩, 5, "archive"⟩

def cexCatalog : List Release := [⟨"go1.21.0", true, [cexFile]⟩]

def cexNet : String → Option Response := fun _ => some ⟨200, [1, 2, 3]⟩

def cexSha : List Nat → List Nat := fun _ => []

def cexFS1 : FS := (runLoop cexSha cexNet ⟨[], [], [], []⟩ cexCatalog).1

def cexFileB : File := ⟨"g", "linux", "amd64", "go1.21.0", ⟨"zz"⟩, 1, "archive"⟩

def cexCatalogB : List Release := [⟨"go1.21.0", true, [cexFileB]⟩]

def cexNetB : String → Option Response := fun _ => some ⟨200, [7]⟩

def cexFS1B : FS := (runLoop cexSha cexNetB ⟨[], [], [], []⟩ cexCatalogB).1

/-- C1 counterexample: two concrete runs in which the first run
completed successfully for all artifacts in the claim's sense — the
non-skipped artifact's file and sidecar were both written — yet the
second run against the resulting state performs one network download,
not zero. Facet one: a 200 response whose 3-byte body differs from the
declared size 5 (the code never checks the downloaded length, so the
second run fails the size check and re-downloads). Facet two: an
artifact whose expected hash text "zz" is not valid hex; the written
sidecar then fails to decode on the second run, which re-downloads. -/
theorem runLoop_not_idempotent :
    (fsGet cexFS1.files (dlTarget "go1.21.0" cexFile) = some [1, 2, 3] ∧
      fsGet cexFS1.files (dlSHA (dlTarget "go1.21.0" cexFile)) = some (strBytes "aa") ∧
      skipFile cexFile = false ∧
      (runLoop cexSha cexNet cexFS1 cexCatalog).2 = 1) ∧
    (fsGet cexFS1B.files (dlTarget "go1.21.0" cexFileB) = some [7] ∧
      fsGet cexFS1B.files (dlSHA (dlTarget "go1.21.0" cexFileB)) = some (strBytes "zz") ∧
      skipFile cexFileB = false ∧
      (runLoop cexSha cexNetB cexFS1B cexCatalogB).2 = 1) := by
  decide

/-- C1 (amended): against a filesystem state in which every non-skipped
artifact of every non-skipped release has its file present with a size
matching the declared size, and its sidecar present, readable, and
containing exactly the artifact's well-formed (hex-decodable) expected
hash text — the state a fully successful first run leaves behind
provided every fetched body had exactly the declared size and every
expected hash text is valid hex — the reconciliation loop performs zero
network downloads and the verifier reports every non-skipped artifact
satisfied. -/
theorem second_run_zero_downloads (sha256 : List Nat → List Nat)
    (net : String → Option Response) (fs : FS) (rel : List Release)
    (h : ∀ r ∈ rel, skipRelease r.Version = false →
      ∀ f ∈ r.Downloads, skipFile f = false →
        artifactSatisfiedState fs r.Version f = true) :
    (runLoop sha256 net fs rel).2 = 0 ∧
    ∀ r ∈ rel, skipRelease r.Version = false →
      ∀ f ∈ r.Downloads, skipFile f = false →
        (checkHash sha256 fs r.Version f).1 = true := by
  have h' : ∀ r ∈ rel, skipRelease r.Version = false →
      ∀ f ∈ r.Downloads, skipFile f = true ∨ artifactSatisfiedState fs r.Version f = true := by
    intro r hr hs f hf
    by_cases hsf : skipFile f = true
    · exact Or.inl hsf
    · exact Or.inr (h r hr hs f hf (by simpa [Bool.not_eq_true] using hsf))
  constructor
  · exact (runLoop_noDownload sha256 net rel fs h').1
  · intro r hr hs f hf hnsf
    rw [checkHash_of_satisfiedState sha256 fs r.Version f (h r hr hs f hf hnsf)]

def satFile : File := ⟨"f", "linux", "amd64", "go1.21.0", ⟨"aa"⟩, 1, "archive"⟩

def satCatalog : List Release := [⟨"go1.21.0", true, [satFile]⟩]

def satFS : FS :=
  ⟨[("go1.21.0/f", [0]), ("go1.21.0/f.sha", strBytes "aa")], ["go1.21.0"], [], []⟩

/-- Witness for the amended idempotence theorem at a concrete
one-release, one-artifact catalog whose file and sidecar are in place. -/
theorem second_run_zero_downloads_witness :
    artifactSatisfiedState satFS "go1.21.0" satFile = true ∧
    (runLoop cexSha (fun _ => none) satFS satCatalog).2 = 0 :=
  ⟨by decide,
    (second_run_zero_downloads cexSha (fun _ => none) satFS satCatalog (by decide)).1⟩
